import Mathlib

/-!
Verification of the todo application's core: the entity model, the
persistence gateway (`src/services/api.ts`), and the state container /
query engine (`src/contexts/TodoContext.tsx`).

Timestamps (`Date` values) are modelled as natural numbers (milliseconds,
`Date.getTime()`); re-wrapping a timestamp in `new Date(...)` is the
identity on this representation.  Stats counters are modelled as integers,
matching JavaScript numbers under increment and decrement.
-/

namespace TodoApp

/-- Priority levels, from `enum Priority` in the types module. -/
inductive Priority where
  | high
  | medium
  | low
  deriving DecidableEq, Repr

/-- Task status, from `enum TaskStatus`. -/
inductive TaskStatus where
  | pending
  | completed
  deriving DecidableEq, Repr

/-- A todo record, from `interface Todo`. -/
structure Todo where
  id : String
  title : String
  description : Option String
  priority : Priority
  status : TaskStatus
  createdAt : Nat
  updatedAt : Nat
  completedAt : Option Nat
  deriving DecidableEq, Repr

/-- Per-priority counters, the `byPriority` field of `TodoStats`. -/
structure ByPriority where
  high : Int
  medium : Int
  low : Int
  deriving DecidableEq, Repr

/-- Aggregate statistics, from `interface TodoStats`. -/
structure TodoStats where
  total : Int
  completed : Int
  pending : Int
  byPriority : ByPriority
  deriving DecidableEq, Repr

/-- Filter specification, from `interface TodoFilters`; an absent field
means no constraint. -/
structure TodoFilters where
  status : Option TaskStatus := none
  priority : Option Priority := none
  search : Option String := none
  deriving DecidableEq, Repr

/-- Sort field, from `TodoSort.field`. -/
inductive SortField where
  | title
  | priority
  | createdAt
  | updatedAt
  deriving DecidableEq, Repr

/-- Sort direction, from `TodoSort.direction`. -/
inductive SortDirection where
  | asc
  | desc
  deriving DecidableEq, Repr

/-- Sort specification, from `interface TodoSort`. -/
structure TodoSort where
  field : SortField
  direction : SortDirection
  deriving DecidableEq, Repr

/-- Draft for creation, from `interface CreateTodoRequest`. -/
structure CreateTodoRequest where
  title : String
  description : Option String
  priority : Priority
  deriving DecidableEq, Repr

/-- Patch for update, from `interface UpdateTodoRequest`: all fields
optional except `id`. -/
structure UpdateTodoRequest where
  id : String
  title : Option String := none
  description : Option String := none
  priority : Option Priority := none
  status : Option TaskStatus := none
  deriving DecidableEq, Repr

/-- Error value, from `class ApiError` in `api.ts` (message plus HTTP-like
status code). -/
structure ApiError where
  message : String
  status : Nat
  deriving DecidableEq, Repr

/-! ## Persistence gateway (`src/services/api.ts`) -/

/-- Function `calculateStats` from `api.ts`: counts by status and by priority over
the full collection. -/
def calculateStats (todos : List Todo) : TodoStats :=
  let total : Int := todos.length
  let completed : Int := (todos.filter fun todo => todo.status = TaskStatus.completed).length
  let pending : Int := (todos.filter fun todo => todo.status = TaskStatus.pending).length
  let byPriority : ByPriority :=
    { high := ((todos.filter fun todo => todo.priority = Priority.high).length : Int)
      medium := ((todos.filter fun todo => todo.priority = Priority.medium).length : Int)
      low := ((todos.filter fun todo => todo.priority = Priority.low).length : Int) }
  { total := total, completed := completed, pending := pending, byPriority := byPriority }

/-- Operation `todoApi.getTodos`: returns every stored todo plus stats over all of
them (the simulated delay and the never-taken catch branch are elided). -/
def getTodos (todos : List Todo) : List Todo × TodoStats :=
  (todos, calculateStats todos)

/-- Operation `todoApi.createTodo`: builds the new record (fresh `id` supplied by
`generateId`, both timestamps the current time, status pending, no
`completedAt`), pushes it onto the stored collection, and returns it. -/
def createTodo (todos : List Todo) (todo : CreateTodoRequest) (id : String) (now : Nat) :
    Todo × List Todo :=
  let newTodo : Todo :=
    { id := id
      title := todo.title
      description := todo.description
      priority := todo.priority
      status := TaskStatus.pending
      createdAt := now
      updatedAt := now
      completedAt := none }
  (newTodo, todos ++ [newTodo])

/-- The merge step of `todoApi.updateTodo`: `{...existingTodo, ...todoUpdate}`
with `updatedAt = now` and the completion-timestamp conditional from the
source (lines 167–177 of `api.ts`). -/
def mergeUpdate (existingTodo : Todo) (todoUpdate : UpdateTodoRequest) (now : Nat) : Todo :=
  { id := todoUpdate.id
    title := todoUpdate.title.getD existingTodo.title
    description :=
      match todoUpdate.description with
      | some d => some d
      | none => existingTodo.description
    priority := todoUpdate.priority.getD existingTodo.priority
    status := todoUpdate.status.getD existingTodo.status
    createdAt := existingTodo.createdAt
    updatedAt := now
    completedAt :=
      if todoUpdate.status = some TaskStatus.completed ∧
          existingTodo.status ≠ TaskStatus.completed then
        some now
      else if todoUpdate.status = some TaskStatus.pending then
        none
      else
        existingTodo.completedAt }

/-- Replace the first record whose `id` matches the patch (the
`findIndex` / `todos[todoIndex] = updatedTodo` part of `updateTodo`);
`none` when no record matches. -/
def updateFirst : List Todo → UpdateTodoRequest → Nat → Option (Todo × List Todo)
  | [], _, _ => none
  | t :: rest, todoUpdate, now =>
    if t.id = todoUpdate.id then
      some (mergeUpdate t todoUpdate now, mergeUpdate t todoUpdate now :: rest)
    else
      (updateFirst rest todoUpdate now).map fun r => (r.1, t :: r.2)

/-- Operation `todoApi.updateTodo`: 404 if the id is absent, otherwise the merged
record replaces the stored one in place and is returned. -/
def updateTodo (todos : List Todo) (todoUpdate : UpdateTodoRequest) (now : Nat) :
    Except ApiError (Todo × List Todo) :=
  match updateFirst todos todoUpdate now with
  | none => Except.error { message := "Todo not found", status := 404 }
  | some r => Except.ok r

/-- Remove the first record with the given id (the `findIndex` /
`splice(todoIndex, 1)` part of `deleteTodo`); `none` when absent. -/
def removeFirst : List Todo → String → Option (List Todo)
  | [], _ => none
  | t :: rest, id =>
    if t.id = id then some rest
    else (removeFirst rest id).map (t :: ·)

/-- Operation `todoApi.deleteTodo`, state-passing: on a missing id the error is
raised before `saveTodosToStorage` runs, so the stored collection is
returned unchanged. -/
def deleteTodo (todos : List Todo) (id : String) : Except ApiError Unit × List Todo :=
  match removeFirst todos id with
  | none => (Except.error { message := "Todo not found", status := 404 }, todos)
  | some rest => (Except.ok (), rest)

/-- The status flip used by both `todoApi.toggleTodoStatus` and the
container's `toggleTodoStatus`. -/
def flipStatus (currentStatus : TaskStatus) : TaskStatus :=
  if currentStatus = TaskStatus.pending then TaskStatus.completed else TaskStatus.pending

/-- Operation `todoApi.toggleTodoStatus`: delegates to `updateTodo` with only the
flipped status in the patch. -/
def toggleTodoStatus (todos : List Todo) (id : String) (currentStatus : TaskStatus)
    (now : Nat) : Except ApiError (Todo × List Todo) :=
  updateTodo todos { id := id, status := some (flipStatus currentStatus) } now

/-! ## Query engine (`filterAndSortTodos` in `TodoContext.tsx`) -/

/-- JavaScript `String.prototype.toLowerCase`, modelled on the string's
character sequence. -/
def jsToLower (s : String) : List Char := s.data.map Char.toLower

/-- Predicate `isPrefixList a b`: the first character list is a prefix of the second. -/
def isPrefixList : List Char → List Char → Bool
  | [], _ => true
  | _ :: _, [] => false
  | a :: as, b :: bs => a = b && isPrefixList as bs

/-- JavaScript `String.prototype.includes` on character lists: `need`
occurs contiguously inside `hay`. -/
def containsSub (need : List Char) : List Char → Bool
  | [] => isPrefixList need []
  | b :: bs => isPrefixList need (b :: bs) || containsSub need bs

/-- JavaScript `<` on strings: lexicographic comparison of the character
sequences. -/
def strLt : List Char → List Char → Bool
  | [], [] => false
  | [], _ :: _ => true
  | _ :: _, [] => false
  | x :: xs, y :: ys => if x < y then true else if y < x then false else strLt xs ys

/-- The search predicate of `filterAndSortTodos`: case-insensitive
substring match against the title, or the description when present. -/
def searchMatches (searchLower : List Char) (todo : Todo) : Bool :=
  containsSub searchLower (jsToLower todo.title) ||
    (match todo.description with
     | some d => containsSub searchLower (jsToLower d)
     | none => false)

/-- The `priorityOrder` table of the sort comparator: high 1, medium 2,
low 3. -/
def priorityOrder : Priority → Int
  | Priority.high => 1
  | Priority.medium => 2
  | Priority.low => 3

/-- Comparison `aVal < bVal` for the comparator's key values, per sort field (title
keys are lowercased; timestamp keys compare numerically). -/
def keyLt (f : SortField) (a b : Todo) : Bool :=
  match f with
  | SortField.title => strLt (jsToLower a.title) (jsToLower b.title)
  | SortField.priority => priorityOrder a.priority < priorityOrder b.priority
  | SortField.createdAt => a.createdAt < b.createdAt
  | SortField.updatedAt => a.updatedAt < b.updatedAt

/-- The JS comparator passed to `Array.prototype.sort`: ascending returns
`aVal < bVal ? -1 : aVal > bVal ? 1 : 0`, descending the mirror image. -/
def jsCompare (srt : TodoSort) (a b : Todo) : Int :=
  match srt.direction with
  | SortDirection.asc =>
    if keyLt srt.field a b then -1 else if keyLt srt.field b a then 1 else 0
  | SortDirection.desc =>
    if keyLt srt.field b a then -1 else if keyLt srt.field a b then 1 else 0

/-- The non-strict order induced by the comparator: `a` may be placed
before `b`. -/
def sortLE (srt : TodoSort) (a b : Todo) : Prop := jsCompare srt a b ≤ 0

instance (srt : TodoSort) : DecidableRel (sortLE srt) :=
  fun a b => inferInstanceAs (Decidable (jsCompare srt a b ≤ 0))

/-- Model of `Array.prototype.sort` with the comparator: a stable sort placing each
element before the first already-placed element it compares `≤ 0`
against (ECMAScript sorts are stable). -/
def stableSortJS (srt : TodoSort) (l : List Todo) : List Todo :=
  l.insertionSort (sortLE srt)

/-- The `if (filters.status)` stage of `filterAndSortTodos`. -/
def stageStatus (filters : TodoFilters) (todos : List Todo) : List Todo :=
  match filters.status with
  | some st => todos.filter fun todo => todo.status = st
  | none => todos

/-- The `if (filters.priority)` stage of `filterAndSortTodos`. -/
def stagePriority (filters : TodoFilters) (todos : List Todo) : List Todo :=
  match filters.priority with
  | some p => todos.filter fun todo => todo.priority = p
  | none => todos

/-- The `if (filters.search)` stage of `filterAndSortTodos`; skipped for
an empty string (JS truthiness). -/
def stageSearch (filters : TodoFilters) (todos : List Todo) : List Todo :=
  match filters.search with
  | some s => if s = "" then todos else todos.filter (searchMatches (jsToLower s))
  | none => todos

/-- The three conjunctive filter stages of `filterAndSortTodos`, applied
in source order. -/
def applyFilters (todos : List Todo) (filters : TodoFilters) : List Todo :=
  stageSearch filters (stagePriority filters (stageStatus filters todos))

/-- Function `filterAndSortTodos` from `TodoContext.tsx`: filter conjunctively,
then sort with the field/direction comparator. -/
def filterAndSortTodos (todos : List Todo) (filters : TodoFilters) (srt : TodoSort) :
    List Todo :=
  stableSortJS srt (applyFilters todos filters)

/-! ## State container (`TodoContext.tsx`) -/

/-- Container state, from `interface TodoState`. -/
structure TodoState where
  allTodos : List Todo
  todos : List Todo
  stats : TodoStats
  filters : TodoFilters
  sort : TodoSort
  isLoading : Bool
  error : Option String
  deriving DecidableEq, Repr

/-- Reducer actions, from `type TodoAction`. -/
inductive TodoAction where
  | setLoading (b : Bool)
  | setError (e : Option String)
  | setTodos (todos : List Todo) (stats : TodoStats)
  | addTodo (t : Todo)
  | updateTodo (t : Todo)
  | deleteTodo (id : String)
  | setFilters (f : TodoFilters)
  | setSort (s : TodoSort)

/-- Constant `initialState` from `TodoContext.tsx`. -/
def initialState : TodoState :=
  { allTodos := []
    todos := []
    stats := { total := 0, completed := 0, pending := 0
               byPriority := { high := 0, medium := 0, low := 0 } }
    filters := {}
    sort := { field := SortField.createdAt, direction := SortDirection.desc }
    isLoading := false
    error := none }

/-- Increment the matching `byPriority` bucket (the computed-key update in
the `ADD_TODO` branch). -/
def bumpPriority (bp : ByPriority) (p : Priority) (d : Int) : ByPriority :=
  match p with
  | Priority.high => { bp with high := bp.high + d }
  | Priority.medium => { bp with medium := bp.medium + d }
  | Priority.low => { bp with low := bp.low + d }

/-- Decrement the status bucket named by the deleted record's status (the
computed-key update in the `DELETE_TODO` branch). -/
def decStatusBucket (s : TodoStats) (st : TaskStatus) : TodoStats :=
  match st with
  | TaskStatus.pending => { s with pending := s.pending - 1 }
  | TaskStatus.completed => { s with completed := s.completed - 1 }

/-- Function `todoReducer` from `TodoContext.tsx`.  The `new Date(...)` re-wrapping
of payload timestamps is the identity in this model. -/
def todoReducer (state : TodoState) (action : TodoAction) : TodoState :=
  match action with
  | TodoAction.setLoading b => { state with isLoading := b }
  | TodoAction.setError e => { state with error := e, isLoading := false }
  | TodoAction.setTodos todos stats =>
    { state with
      allTodos := todos
      todos := filterAndSortTodos todos state.filters state.sort
      stats := stats
      isLoading := false
      error := none }
  | TodoAction.addTodo t =>
    let newAllTodos := state.allTodos ++ [t]
    { state with
      allTodos := newAllTodos
      todos := filterAndSortTodos newAllTodos state.filters state.sort
      stats :=
        { state.stats with
          total := state.stats.total + 1
          pending := state.stats.pending + 1
          byPriority := bumpPriority state.stats.byPriority t.priority 1 } }
  | TodoAction.updateTodo t =>
    let updatedAllTodos := state.allTodos.map fun todo => if todo.id = t.id then t else todo
    { state with
      allTodos := updatedAllTodos
      todos := filterAndSortTodos updatedAllTodos state.filters state.sort }
  | TodoAction.deleteTodo id =>
    match state.allTodos.find? (fun todo => todo.id = id) with
    | none => state
    | some todoToDelete =>
      let filteredAllTodos := state.allTodos.filter fun todo => ¬ todo.id = id
      { state with
        allTodos := filteredAllTodos
        todos := filterAndSortTodos filteredAllTodos state.filters state.sort
        stats :=
          { decStatusBucket state.stats todoToDelete.status with
            total := state.stats.total - 1
            byPriority := bumpPriority state.stats.byPriority todoToDelete.priority (-1) } }
  | TodoAction.setFilters f =>
    { state with filters := f, todos := filterAndSortTodos state.allTodos f state.sort }
  | TodoAction.setSort s =>
    { state with sort := s, todos := filterAndSortTodos state.allTodos state.filters s }

/-! ### Action dispatch sequences of the provider (`TodoProvider`)

Each `useCallback` action is a try/catch around a gateway call; the model
takes the gateway outcome as an explicit `Except` argument and replays the
exact dispatch sequence of the source (toast notifications are external
and elided). -/

/-- Action `loadTodos`: SET_LOADING true, then SET_TODOS on success or SET_ERROR
with the failure's message on throw. -/
def runLoad (s : TodoState) (res : Except ApiError (List Todo × TodoStats)) : TodoState :=
  match res with
  | Except.ok (todos, stats) =>
    todoReducer (todoReducer s (TodoAction.setLoading true)) (TodoAction.setTodos todos stats)
  | Except.error e =>
    todoReducer (todoReducer s (TodoAction.setLoading true))
      (TodoAction.setError (some e.message))

/-- Action `createTodo`: SET_LOADING true, ADD_TODO, SET_LOADING false on
success; SET_ERROR on throw. -/
def runCreate (s : TodoState) (res : Except ApiError Todo) : TodoState :=
  match res with
  | Except.ok t =>
    todoReducer
      (todoReducer (todoReducer s (TodoAction.setLoading true)) (TodoAction.addTodo t))
      (TodoAction.setLoading false)
  | Except.error e =>
    todoReducer (todoReducer s (TodoAction.setLoading true))
      (TodoAction.setError (some e.message))

/-- Action `updateTodo` (also the tail of `toggleTodoStatus`): SET_LOADING true,
UPDATE_TODO, SET_LOADING false on success; SET_ERROR on throw. -/
def runUpdate (s : TodoState) (res : Except ApiError Todo) : TodoState :=
  match res with
  | Except.ok t =>
    todoReducer
      (todoReducer (todoReducer s (TodoAction.setLoading true)) (TodoAction.updateTodo t))
      (TodoAction.setLoading false)
  | Except.error e =>
    todoReducer (todoReducer s (TodoAction.setLoading true))
      (TodoAction.setError (some e.message))

/-- Action `deleteTodo`: SET_LOADING true, DELETE_TODO, SET_LOADING false on
success; SET_ERROR on throw. -/
def runDelete (s : TodoState) (id : String) (res : Except ApiError Unit) : TodoState :=
  match res with
  | Except.ok _ =>
    todoReducer
      (todoReducer (todoReducer s (TodoAction.setLoading true)) (TodoAction.deleteTodo id))
      (TodoAction.setLoading false)
  | Except.error e =>
    todoReducer (todoReducer s (TodoAction.setLoading true))
      (TodoAction.setError (some e.message))

/-- The container's `toggleTodoStatus`: look the record up in
`allTodos`, return unchanged if absent, otherwise call the gateway with
the flipped status (`gw`) and replay `updateTodo`'s dispatch sequence. -/
def runToggle (s : TodoState) (id : String)
    (gw : TaskStatus → Except ApiError Todo) : TodoState :=
  match s.allTodos.find? (fun todo => todo.id = id) with
  | none => s
  | some todo => runUpdate s (gw (flipStatus todo.status))

/-! ### The combined system: backing store plus container -/

/-- Backing store (the `todos` localStorage slot) together with the
container state. -/
structure SysState where
  storage : List Todo
  ctx : TodoState
  deriving DecidableEq, Repr

/-- A successful `load` end to end. -/
def doLoad (sys : SysState) : SysState :=
  { storage := sys.storage, ctx := runLoad sys.ctx (Except.ok (getTodos sys.storage)) }

/-- A successful `create` end to end (`id` is the fresh id from
`generateId`, `now` the current time). -/
def doCreate (sys : SysState) (req : CreateTodoRequest) (id : String) (now : Nat) : SysState :=
  let r := createTodo sys.storage req id now
  { storage := r.2, ctx := runCreate sys.ctx (Except.ok r.1) }

/-- States of the combined system reachable from the empty initial state
by successful load / create / update / remove / toggleStatus actions. -/
inductive Reachable : SysState → Prop where
  | init : Reachable { storage := [], ctx := initialState }
  | load {sys : SysState} : Reachable sys → Reachable (doLoad sys)
  | create {sys : SysState} (req : CreateTodoRequest) (id : String) (now : Nat) :
    Reachable sys → (∀ t ∈ sys.storage, t.id ≠ id) →
    Reachable (doCreate sys req id now)
  | update {sys : SysState} {t : Todo} {st : List Todo}
      (u : UpdateTodoRequest) (now : Nat) :
    Reachable sys → updateTodo sys.storage u now = Except.ok (t, st) →
    Reachable { storage := st, ctx := runUpdate sys.ctx (Except.ok t) }
  | remove {sys : SysState} {st : List Todo} (id : String) :
    Reachable sys → deleteTodo sys.storage id = (Except.ok (), st) →
    Reachable { storage := st, ctx := runDelete sys.ctx id (Except.ok ()) }
  | toggle {sys : SysState} {td t : Todo} {st : List Todo} (id : String) (now : Nat) :
    Reachable sys → sys.ctx.allTodos.find? (fun todo => todo.id = id) = some td →
    updateTodo sys.storage { id := id, status := some (flipStatus td.status) } now =
      Except.ok (t, st) →
    Reachable { storage := st, ctx := runUpdate sys.ctx (Except.ok t) }

/-- States reachable using only the actions that do patch stats
incrementally or replace them wholesale: load, create, remove. -/
inductive ReachableLCR : SysState → Prop where
  | init : ReachableLCR { storage := [], ctx := initialState }
  | load {sys : SysState} : ReachableLCR sys → ReachableLCR (doLoad sys)
  | create {sys : SysState} (req : CreateTodoRequest) (id : String) (now : Nat) :
    ReachableLCR sys → (∀ t ∈ sys.storage, t.id ≠ id) →
    ReachableLCR (doCreate sys req id now)
  | remove {sys : SysState} {st : List Todo} (id : String) :
    ReachableLCR sys → deleteTodo sys.storage id = (Except.ok (), st) →
    ReachableLCR { storage := st, ctx := runDelete sys.ctx id (Except.ok ()) }

/-! ## Auxiliary definitions used by the statements below -/

/-- The statistics of a collection with one extra record: every counter the
record falls in goes up by one. -/
def statsWith (c : TodoStats) (t : Todo) : TodoStats :=
  { total := c.total + 1
    completed := c.completed + (if t.status = TaskStatus.completed then 1 else 0)
    pending := c.pending + (if t.status = TaskStatus.pending then 1 else 0)
    byPriority := bumpPriority c.byPriority t.priority 1 }

/-- What the container guarantees after a gateway failure: loading
cleared, the error message surfaced, canonical collection and stats
untouched. -/
def errOutcome (s s' : TodoState) (e : ApiError) : Prop :=
  s'.isLoading = false ∧ s'.error = some e.message ∧
  s'.allTodos = s.allTodos ∧ s'.stats = s.stats

/-- A concrete pending record used to instantiate theorems below. -/
def wPending : Todo :=
  { id := "p", title := "walk", description := some "the dog", priority := Priority.high,
    status := TaskStatus.pending, createdAt := 0, updatedAt := 1, completedAt := none }

/-- A concrete completed record used to instantiate theorems below. -/
def wCompleted : Todo :=
  { id := "b", title := "B", description := none, priority := Priority.low,
    status := TaskStatus.completed, createdAt := 2, updatedAt := 2, completedAt := some 2 }

/-- The record produced by toggling `wCompleted` at time 5. -/
def wCompletedT1 : Todo :=
  { id := "b", title := "B", description := none, priority := Priority.low,
    status := TaskStatus.pending, createdAt := 2, updatedAt := 5, completedAt := none }

/-- The record produced by toggling `wCompletedT1` at time 9. -/
def wCompletedT2 : Todo :=
  { id := "b", title := "B", description := none, priority := Priority.low,
    status := TaskStatus.completed, createdAt := 2, updatedAt := 9, completedAt := some 9 }

/-- Container state holding one pending record, used to instantiate
theorems below. -/
def wState : TodoState := { initialState with allTodos := [wPending] }

/-- A concrete gateway failure. -/
def wErr : ApiError := { message := "Failed to save todos", status := 500 }

/-- Draft used in the reachable-state counterexample. -/
def c1Draft : CreateTodoRequest :=
  { title := "x", description := none, priority := Priority.high }

/-- System state after a successful create on the initial empty state. -/
def c1Sys1 : SysState := doCreate { storage := [], ctx := initialState } c1Draft "a" 1

/-- The record stored by that create. -/
def c1Todo1 : Todo := (createTodo [] c1Draft "a" 1).1

/-- The record after toggling it to completed at time 2. -/
def c1Todo2 : Todo :=
  { id := "a", title := "x", description := none, priority := Priority.high,
    status := TaskStatus.completed, createdAt := 1, updatedAt := 2, completedAt := some 2 }

/-- System state after create then toggleStatus. -/
def c1Sys2 : SysState :=
  { storage := [c1Todo2], ctx := runUpdate c1Sys1.ctx (Except.ok c1Todo2) }

end TodoApp

deriving instance DecidableEq for Except

namespace TodoApp

/-! ## Properties of the comparator -/

theorem strLt_asymm : ∀ {a b : List Char}, strLt a b = true → strLt b a = true → False
  | [], [], h1, _ => by simp [strLt] at h1
  | [], _ :: _, _, h2 => by simp [strLt] at h2
  | _ :: _, [], h1, _ => by simp [strLt] at h1
  | x :: xs, y :: ys, h1, h2 => by
    by_cases hxy : x < y
    · have hyx : ¬ y < x := lt_asymm hxy
      simp only [strLt, if_pos hxy, if_neg hyx] at h1 h2
      simp at h2
    · by_cases hyx : y < x
      · simp only [strLt, if_pos hyx, if_neg hxy] at h1 h2
        simp at h1
      · simp only [strLt, if_neg hxy, if_neg hyx] at h1 h2
        exact strLt_asymm h1 h2

theorem strLt_trans : ∀ {a b c : List Char},
    strLt a b = true → strLt b c = true → strLt a c = true
  | [], [], _, h1, _ => by simp [strLt] at h1
  | _ :: _, [], _, h1, _ => by simp [strLt] at h1
  | [], _ :: _, [], _, h2 => by simp [strLt] at h2
  | [], _ :: _, _ :: _, _, _ => by simp [strLt]
  | x :: xs, y :: ys, [], h1, h2 => by simp [strLt] at h2
  | x :: xs, y :: ys, z :: zs, h1, h2 => by
    by_cases hxy : x < y
    · by_cases hyz : y < z
      · simp [strLt, lt_trans hxy hyz]
      · by_cases hzy : z < y
        · simp only [strLt, if_neg hyz, if_pos hzy] at h2
          simp at h2
        · have : y = z := le_antisymm (not_lt.mp hzy) (not_lt.mp hyz)
          subst this
          simp [strLt, hxy]
    · by_cases hyx : y < x
      · simp only [strLt, if_neg hxy, if_pos hyx] at h1
        simp at h1
      · have hxy' : x = y := le_antisymm (not_lt.mp hyx) (not_lt.mp hxy)
        subst hxy'
        simp only [strLt, if_neg hxy, if_neg hyx] at h1
        by_cases hyz : x < z
        · simp [strLt, hyz]
        · by_cases hzy : z < x
          · simp only [strLt, if_neg hyz, if_pos hzy] at h2
            simp at h2
          · simp only [strLt, if_neg hyz, if_neg hzy] at h2 ⊢
            exact strLt_trans h1 h2

theorem strLt_eq_of_not : ∀ {a b : List Char},
    strLt a b = false → strLt b a = false → a = b
  | [], [], _, _ => rfl
  | [], _ :: _, h1, _ => by simp [strLt] at h1
  | _ :: _, [], _, h2 => by simp [strLt] at h2
  | x :: xs, y :: ys, h1, h2 => by
    by_cases hxy : x < y
    · simp [strLt, hxy] at h1
    · by_cases hyx : y < x
      · simp [strLt, hyx] at h2
      · have hxy' : x = y := le_antisymm (not_lt.mp hyx) (not_lt.mp hxy)
        subst hxy'
        simp only [strLt, if_neg hxy, if_neg hyx] at h1 h2
        rw [strLt_eq_of_not h1 h2]

theorem strLt_negTrans {a b c : List Char}
    (h1 : strLt b a = false) (h2 : strLt c b = false) : strLt c a = false := by
  cases hca : strLt c a with
  | false => rfl
  | true =>
    exfalso
    cases hab : strLt a b with
    | true =>
      have := strLt_trans hca hab
      rw [h2] at this
      exact Bool.false_ne_true this
    | false =>
      have hba : a = b := strLt_eq_of_not hab h1
      subst hba
      rw [h2] at hca
      exact Bool.false_ne_true hca

theorem keyLt_asymm (f : SortField) (a b : Todo) :
    keyLt f a b = true → keyLt f b a = true → False := by
  cases f <;> simp only [keyLt, decide_eq_true_eq]
  · exact fun h1 h2 => strLt_asymm h1 h2
  · omega
  · omega
  · omega

theorem keyLt_negTrans (f : SortField) (a b c : Todo) :
    keyLt f b a = false → keyLt f c b = false → keyLt f c a = false := by
  cases f <;> simp only [keyLt, decide_eq_false_iff_not, not_lt]
  · exact fun h1 h2 => strLt_negTrans h1 h2
  · omega
  · omega
  · omega

theorem sortLE_asc_iff (f : SortField) (a b : Todo) :
    sortLE { field := f, direction := SortDirection.asc } a b ↔ keyLt f b a = false := by
  unfold sortLE jsCompare
  cases h1 : keyLt f a b <;> cases h2 : keyLt f b a <;> simp [h1, h2]
  exact keyLt_asymm f a b h1 h2

theorem sortLE_desc_iff (f : SortField) (a b : Todo) :
    sortLE { field := f, direction := SortDirection.desc } a b ↔ keyLt f a b = false := by
  unfold sortLE jsCompare
  cases h1 : keyLt f a b <;> cases h2 : keyLt f b a <;> simp [h1, h2]
  exact keyLt_asymm f a b h1 h2

theorem sortLE_total (srt : TodoSort) (a b : Todo) : sortLE srt a b ∨ sortLE srt b a := by
  obtain ⟨f, d⟩ := srt
  cases d
  · rw [sortLE_asc_iff, sortLE_asc_iff]
    cases h1 : keyLt f b a with
    | false => exact Or.inl rfl
    | true =>
      cases h2 : keyLt f a b with
      | false => exact Or.inr rfl
      | true => exact absurd (keyLt_asymm f a b h2 h1) not_false
  · rw [sortLE_desc_iff, sortLE_desc_iff]
    cases h1 : keyLt f a b with
    | false => exact Or.inl rfl
    | true =>
      cases h2 : keyLt f b a with
      | false => exact Or.inr rfl
      | true => exact absurd (keyLt_asymm f a b h1 h2) not_false

theorem sortLE_trans (srt : TodoSort) (a b c : Todo) :
    sortLE srt a b → sortLE srt b c → sortLE srt a c := by
  obtain ⟨f, d⟩ := srt
  cases d
  · rw [sortLE_asc_iff, sortLE_asc_iff, sortLE_asc_iff]
    exact fun h1 h2 => keyLt_negTrans f a b c h1 h2
  · rw [sortLE_desc_iff, sortLE_desc_iff, sortLE_desc_iff]
    exact fun h1 h2 => keyLt_negTrans f c b a h2 h1

/-! ## Properties of the stable sort -/

theorem stableSortJS_perm (srt : TodoSort) (l : List Todo) :
    List.Perm (stableSortJS srt l) l :=
  List.perm_insertionSort (sortLE srt) l

theorem stableSortJS_sorted (srt : TodoSort) (l : List Todo) :
    (stableSortJS srt l).Pairwise (sortLE srt) := by
  haveI : IsTotal Todo (sortLE srt) := ⟨sortLE_total srt⟩
  haveI : IsTrans Todo (sortLE srt) := ⟨fun a b c => sortLE_trans srt a b c⟩
  exact List.sorted_insertionSort (sortLE srt) l

theorem stableSortJS_of_sorted (srt : TodoSort) {l : List Todo}
    (h : l.Pairwise (sortLE srt)) : stableSortJS srt l = l :=
  List.Sorted.insertionSort_eq h

/-- Inserting an element that sorts no later than every element satisfying
`q` prepends it to the `q`-filtered view. -/
theorem filter_orderedInsert {α : Type} (r : α → α → Prop) [DecidableRel r] (q : α → Bool)
    (x : α) (hqx : q x = true) (hx : ∀ y, q y = true → r x y) :
    ∀ l : List α, (l.orderedInsert r x).filter q = x :: l.filter q
  | [] => by simp [List.orderedInsert, hqx]
  | y :: l => by
    by_cases hr : r x y
    · rw [List.orderedInsert, if_pos hr]
      simp [List.filter, hqx]
    · rw [List.orderedInsert, if_neg hr]
      have hqy : q y = false := by
        cases h : q y with
        | false => rfl
        | true => exact absurd (hx y h) hr
      simp only [List.filter, hqy]
      exact filter_orderedInsert r q x hqx hx l

/-- Inserting an element not satisfying `q` leaves the `q`-filtered view
unchanged. -/
theorem filter_orderedInsert_neg {α : Type} (r : α → α → Prop) [DecidableRel r] (q : α → Bool)
    (x : α) (hqx : q x = false) :
    ∀ l : List α, (l.orderedInsert r x).filter q = l.filter q
  | [] => by simp [List.orderedInsert, hqx]
  | y :: l => by
    by_cases hr : r x y
    · rw [List.orderedInsert, if_pos hr]
      simp [List.filter, hqx]
    · rw [List.orderedInsert, if_neg hr]
      simp only [List.filter]
      cases h : q y with
      | false => exact filter_orderedInsert_neg r q x hqx l
      | true => rw [filter_orderedInsert_neg r q x hqx l]

/-- Stability of insertion sort: if all elements satisfying `q` are
mutually unordered (each may precede the other), the `q`-filtered view of
the sorted list is the `q`-filtered view of the input. -/
theorem filter_insertionSort {α : Type} (r : α → α → Prop) [DecidableRel r] (q : α → Bool)
    (hq : ∀ a b : α, q a = true → q b = true → r a b) :
    ∀ l : List α, (l.insertionSort r).filter q = l.filter q
  | [] => rfl
  | x :: l => by
    rw [List.insertionSort]
    cases hqx : q x with
    | true =>
      rw [filter_orderedInsert r q x hqx (fun y hy => hq x y hqx hy),
        filter_insertionSort r q hq l]
      simp [List.filter, hqx]
    | false =>
      rw [filter_orderedInsert_neg r q x hqx, filter_insertionSort r q hq l]
      simp [List.filter, hqx]

/-- Stability of the JS sort, specialised to a predicate whose holders are
mutually tied under the comparator. -/
theorem filter_stableSortJS (srt : TodoSort) (q : Todo → Bool)
    (hq : ∀ a b : Todo, q a = true → q b = true → sortLE srt a b) (l : List Todo) :
    (stableSortJS srt l).filter q = l.filter q :=
  filter_insertionSort (sortLE srt) q hq l

/-! ## Properties of the filter stages -/

theorem applyFilters_empty (l : List Todo) : applyFilters l {} = l := rfl

theorem mem_stageStatus {x : Todo} {l : List Todo} {filters : TodoFilters}
    (hx : x ∈ stageStatus filters l) :
    x ∈ l ∧ ∀ st, filters.status = some st → x.status = st := by
  obtain ⟨st, pr, se⟩ := filters
  cases st with
  | none => exact ⟨hx, by simp⟩
  | some s =>
    simp only [stageStatus, List.mem_filter] at hx
    refine ⟨hx.1, fun st' hst' => ?_⟩
    simp only [Option.some.injEq] at hst'
    subst hst'
    simpa using hx.2

theorem mem_stagePriority {x : Todo} {l : List Todo} {filters : TodoFilters}
    (hx : x ∈ stagePriority filters l) :
    x ∈ l ∧ ∀ p, filters.priority = some p → x.priority = p := by
  obtain ⟨st, pr, se⟩ := filters
  cases pr with
  | none => exact ⟨hx, by simp⟩
  | some p =>
    simp only [stagePriority, List.mem_filter] at hx
    refine ⟨hx.1, fun p' hp' => ?_⟩
    simp only [Option.some.injEq] at hp'
    subst hp'
    simpa using hx.2

theorem mem_stageSearch {x : Todo} {l : List Todo} {filters : TodoFilters}
    (hx : x ∈ stageSearch filters l) :
    x ∈ l ∧ ∀ s, filters.search = some s → s ≠ "" → searchMatches (jsToLower s) x = true := by
  obtain ⟨st, pr, se⟩ := filters
  cases se with
  | none => exact ⟨hx, by simp⟩
  | some s =>
    simp only [stageSearch] at hx
    by_cases hs : s = ""
    · rw [if_pos hs] at hx
      refine ⟨hx, fun s' hs' hne => ?_⟩
      simp only [Option.some.injEq] at hs'
      subst hs'
      exact absurd hs hne
    · rw [if_neg hs] at hx
      rw [List.mem_filter] at hx
      refine ⟨hx.1, fun s' hs' _ => ?_⟩
      simp only [Option.some.injEq] at hs'
      subst hs'
      exact hx.2

theorem stageStatus_eq_self {l : List Todo} {filters : TodoFilters}
    (h : ∀ x ∈ l, ∀ st, filters.status = some st → x.status = st) :
    stageStatus filters l = l := by
  obtain ⟨st, pr, se⟩ := filters
  cases st with
  | none => rfl
  | some s =>
    exact List.filter_eq_self.mpr fun x hx => by simpa using h x hx s rfl

theorem stagePriority_eq_self {l : List Todo} {filters : TodoFilters}
    (h : ∀ x ∈ l, ∀ p, filters.priority = some p → x.priority = p) :
    stagePriority filters l = l := by
  obtain ⟨st, pr, se⟩ := filters
  cases pr with
  | none => rfl
  | some p =>
    exact List.filter_eq_self.mpr fun x hx => by simpa using h x hx p rfl

theorem stageSearch_eq_self {l : List Todo} {filters : TodoFilters}
    (h : ∀ x ∈ l, ∀ s, filters.search = some s → s ≠ "" → searchMatches (jsToLower s) x = true) :
    stageSearch filters l = l := by
  obtain ⟨st, pr, se⟩ := filters
  cases se with
  | none => rfl
  | some s =>
    simp only [stageSearch]
    by_cases hs : s = ""
    · rw [if_pos hs]
    · rw [if_neg hs]
      exact List.filter_eq_self.mpr fun x hx => h x hx s rfl hs

theorem mem_applyFilters {x : Todo} {l : List Todo} {filters : TodoFilters}
    (hx : x ∈ applyFilters l filters) :
    x ∈ l ∧
    (∀ st, filters.status = some st → x.status = st) ∧
    (∀ p, filters.priority = some p → x.priority = p) ∧
    (∀ s, filters.search = some s → s ≠ "" → searchMatches (jsToLower s) x = true) := by
  unfold applyFilters at hx
  obtain ⟨hx1, hsearch⟩ := mem_stageSearch hx
  obtain ⟨hx2, hpriority⟩ := mem_stagePriority hx1
  obtain ⟨hx3, hstatus⟩ := mem_stageStatus hx2
  exact ⟨hx3, hstatus, hpriority, hsearch⟩

theorem applyFilters_eq_self {l : List Todo} {filters : TodoFilters}
    (h : ∀ x ∈ l,
      (∀ st, filters.status = some st → x.status = st) ∧
      (∀ p, filters.priority = some p → x.priority = p) ∧
      (∀ s, filters.search = some s → s ≠ "" → searchMatches (jsToLower s) x = true)) :
    applyFilters l filters = l := by
  unfold applyFilters
  rw [stageStatus_eq_self fun x hx => (h x hx).1,
    stagePriority_eq_self fun x hx => (h x hx).2.1,
    stageSearch_eq_self fun x hx => (h x hx).2.2]

/-! ## Counting lemmas for the statistics -/

theorem length_filter_status (l : List Todo) :
    (l.filter fun t => t.status = TaskStatus.completed).length +
      (l.filter fun t => t.status = TaskStatus.pending).length = l.length := by
  induction l with
  | nil => rfl
  | cons x xs ih =>
    cases h : x.status <;> simp [List.filter_cons, h] <;> omega

theorem length_filter_priority (l : List Todo) :
    (l.filter fun t => t.priority = Priority.high).length +
      (l.filter fun t => t.priority = Priority.medium).length +
      (l.filter fun t => t.priority = Priority.low).length = l.length := by
  induction l with
  | nil => rfl
  | cons x xs ih =>
    cases h : x.priority <;> simp [List.filter_cons, h] <;> omega

theorem calculateStats_middle (l1 l2 : List Todo) (t : Todo) :
    calculateStats (l1 ++ t :: l2) = statsWith (calculateStats (l1 ++ l2)) t := by
  cases ht : t.status <;> cases hp : t.priority <;>
    simp [calculateStats, statsWith, bumpPriority, List.filter_append, List.filter_cons,
      ht, hp] <;>
    omega

theorem calculateStats_append (l : List Todo) (t : Todo) :
    calculateStats (l ++ [t]) = statsWith (calculateStats l) t := by
  simpa using calculateStats_middle l [] t

/-! ## List-surgery lemmas for the gateway operations -/

theorem updateFirst_spec (pre post : List Todo) (t : Todo) (u : UpdateTodoRequest) (now : Nat)
    (hpre : ∀ x ∈ pre, x.id ≠ u.id) (ht : t.id = u.id) :
    updateFirst (pre ++ t :: post) u now =
      some (mergeUpdate t u now, pre ++ mergeUpdate t u now :: post) := by
  induction pre with
  | nil => simp [updateFirst, ht]
  | cons y ys ih =>
    have hy : y.id ≠ u.id := hpre y (by simp)
    rw [List.cons_append, updateFirst, if_neg hy, ih fun x hx => hpre x (by simp [hx])]
    rfl

theorem removeFirst_none (l : List Todo) (id : String) (h : ∀ x ∈ l, x.id ≠ id) :
    removeFirst l id = none := by
  induction l with
  | nil => rfl
  | cons y ys ih =>
    have hy : y.id ≠ id := h y (by simp)
    rw [removeFirst, if_neg hy, ih fun x hx => h x (by simp [hx])]
    rfl

theorem removeFirst_some (l : List Todo) (id : String) (rest : List Todo)
    (h : removeFirst l id = some rest) :
    ∃ pre t post, l = pre ++ t :: post ∧ t.id = id ∧
      (∀ x ∈ pre, x.id ≠ id) ∧ rest = pre ++ post := by
  induction l generalizing rest with
  | nil => simp [removeFirst] at h
  | cons y ys ih =>
    rw [removeFirst] at h
    by_cases hy : y.id = id
    · rw [if_pos hy] at h
      simp only [Option.some.injEq] at h
      exact ⟨[], y, ys, rfl, hy, by simp, h.symm⟩
    · rw [if_neg hy] at h
      cases hr : removeFirst ys id with
      | none => rw [hr] at h; simp at h
      | some r =>
        rw [hr] at h
        simp only [Option.map_some', Option.some.injEq] at h
        obtain ⟨pre, t, post, hl, htid, hpre, hrest⟩ := ih r hr
        refine ⟨y :: pre, t, post, by simp [hl], htid, ?_, ?_⟩
        · intro x hx
          rcases List.mem_cons.mp hx with hx | hx
          · subst hx; exact hy
          · exact hpre x hx
        · rw [← h, hrest]
          rfl

theorem find?_first (pre post : List Todo) (t : Todo) (id : String)
    (hpre : ∀ x ∈ pre, x.id ≠ id) (ht : t.id = id) :
    (pre ++ t :: post).find? (fun todo => todo.id = id) = some t := by
  induction pre with
  | nil =>
    rw [List.nil_append, List.find?_cons_of_pos _ (by simp [ht])]
  | cons y ys ih =>
    have hy : y.id ≠ id := hpre y (by simp)
    rw [List.cons_append, List.find?_cons_of_neg _ (by simp [hy])]
    exact ih fun x hx => hpre x (by simp [hx])

theorem filter_ne_id (pre post : List Todo) (t : Todo) (id : String)
    (hpre : ∀ x ∈ pre, x.id ≠ id) (hpost : ∀ x ∈ post, x.id ≠ id) (ht : t.id = id) :
    (pre ++ t :: post).filter (fun todo => ¬ todo.id = id) = pre ++ post := by
  have h1 : pre.filter (fun todo => ¬ todo.id = id) = pre :=
    List.filter_eq_self.mpr fun x hx => by simpa using hpre x hx
  have h2 : post.filter (fun todo => ¬ todo.id = id) = post :=
    List.filter_eq_self.mpr fun x hx => by simpa using hpost x hx
  have hcond : (decide (¬ t.id = id)) = false := by simp [ht]
  rw [List.filter_append, List.filter_cons, h1, hcond]
  simp only [Bool.false_eq_true, if_false]
  rw [h2]

/-! ## Claim theorems -/

/-- C10: for every list of todos the stats returned by `calculateStats`
satisfy `total = completed + pending` and
`total = byPriority.high + byPriority.medium + byPriority.low`. -/
theorem calculateStats_partitions (todos : List Todo) :
    (calculateStats todos).total =
      (calculateStats todos).completed + (calculateStats todos).pending ∧
    (calculateStats todos).total =
      (calculateStats todos).byPriority.high + (calculateStats todos).byPriority.medium +
        (calculateStats todos).byPriority.low := by
  constructor
  · have h := length_filter_status todos
    simp only [calculateStats]
    omega
  · have h := length_filter_priority todos
    simp only [calculateStats]
    omega

/-- C4: for every draft and prior store contents, `createTodo` followed by
`getTodos` yields the prior records plus exactly one new record whose
title, description and priority come from the draft, whose status is
pending, whose `completedAt` is absent, and whose `createdAt` equals its
`updatedAt` (both the creation time). -/
theorem create_then_list (todos : List Todo) (req : CreateTodoRequest) (id : String)
    (now : Nat) :
    (getTodos (createTodo todos req id now).2).1 =
      todos ++ [(createTodo todos req id now).1] ∧
    (createTodo todos req id now).1.title = req.title ∧
    (createTodo todos req id now).1.description = req.description ∧
    (createTodo todos req id now).1.priority = req.priority ∧
    (createTodo todos req id now).1.status = TaskStatus.pending ∧
    (createTodo todos req id now).1.completedAt = none ∧
    (createTodo todos req id now).1.createdAt = now ∧
    (createTodo todos req id now).1.updatedAt = now ∧
    (createTodo todos req id now).1.createdAt = (createTodo todos req id now).1.updatedAt :=
  ⟨rfl, rfl, rfl, rfl, rfl, rfl, rfl, rfl, rfl⟩

/-- C5: with an empty filter object, `filterAndSortTodos` returns a
permutation of the whole collection — no record dropped, none added, only
the order changed. -/
theorem apply_empty_filters_perm (todos : List Todo) (srt : TodoSort) :
    List.Perm (filterAndSortTodos todos {} srt) todos := by
  unfold filterAndSortTodos
  rw [applyFilters_empty]
  exact stableSortJS_perm srt todos

/-- C8: deleting an id absent from the store fails with the 404 NotFound
error and leaves the stored collection, hence the stats computed over it,
exactly as they were. -/
theorem delete_missing_id (todos : List Todo) (id : String) (h : ∀ t ∈ todos, t.id ≠ id) :
    deleteTodo todos id =
      (Except.error { message := "Todo not found", status := 404 }, todos) ∧
    calculateStats (deleteTodo todos id).2 = calculateStats todos := by
  unfold deleteTodo
  rw [removeFirst_none todos id h]
  exact ⟨rfl, rfl⟩

/-- C8 witness: deleting an unknown id from a one-record store. -/
theorem delete_missing_id_witness :
    deleteTodo [wPending] "zzz" =
      (Except.error { message := "Todo not found", status := 404 }, [wPending]) ∧
    calculateStats (deleteTodo [wPending] "zzz").2 = calculateStats [wPending] :=
  delete_missing_id [wPending] "zzz" (by decide)

/-- C2: for a stored record and a patch addressing it, the gateway update
merges and sets `completedAt` as: patch status completed while stored not
completed gives the current time; patch status pending clears it; patch
status absent, or already completed, leaves the stored value. -/
theorem update_completedAt_rule (pre post : List Todo) (t : Todo) (u : UpdateTodoRequest)
    (now : Nat) (hpre : ∀ x ∈ pre, x.id ≠ u.id) (ht : t.id = u.id) :
    updateTodo (pre ++ t :: post) u now =
      Except.ok (mergeUpdate t u now, pre ++ mergeUpdate t u now :: post) ∧
    (u.status = some TaskStatus.completed → t.status ≠ TaskStatus.completed →
      (mergeUpdate t u now).completedAt = some now) ∧
    (u.status = some TaskStatus.pending → (mergeUpdate t u now).completedAt = none) ∧
    (u.status = none → (mergeUpdate t u now).completedAt = t.completedAt) ∧
    (u.status = some TaskStatus.completed → t.status = TaskStatus.completed →
      (mergeUpdate t u now).completedAt = t.completedAt) := by
  refine ⟨?_, ?_, ?_, ?_, ?_⟩
  · unfold updateTodo
    rw [updateFirst_spec pre post t u now hpre ht]
  · intro hu hts
    simp [mergeUpdate, hu, hts]
  · intro hu
    simp [mergeUpdate, hu]
  · intro hu
    simp [mergeUpdate, hu]
  · intro hu hts
    simp [mergeUpdate, hu, hts]

/-- C2 witness: completing a stored pending record at time 5. -/
theorem update_completedAt_rule_witness :
    updateTodo [wPending] { id := "p", status := some TaskStatus.completed } 5 =
      Except.ok (mergeUpdate wPending { id := "p", status := some TaskStatus.completed } 5,
        [mergeUpdate wPending { id := "p", status := some TaskStatus.completed } 5]) ∧
    (mergeUpdate wPending { id := "p", status := some TaskStatus.completed } 5).completedAt =
      some 5 := by
  have h := update_completedAt_rule [] [] wPending
    { id := "p", status := some TaskStatus.completed } 5 (by simp) rfl
  exact ⟨h.1, h.2.1 rfl (by decide)⟩

/-- C6: the query engine is idempotent — applying `filterAndSortTodos` to
its own output with the same filters and sort returns that output
unchanged. -/
theorem apply_idempotent (todos : List Todo) (filters : TodoFilters) (srt : TodoSort) :
    filterAndSortTodos (filterAndSortTodos todos filters srt) filters srt =
      filterAndSortTodos todos filters srt := by
  unfold filterAndSortTodos
  have hmem : ∀ x ∈ stableSortJS srt (applyFilters todos filters),
      x ∈ applyFilters todos filters :=
    fun x hx => (stableSortJS_perm srt _).mem_iff.mp hx
  rw [applyFilters_eq_self fun x hx => (mem_applyFilters (hmem x hx)).2]
  exact stableSortJS_of_sorted srt (stableSortJS_sorted srt _)

/-- C9: when the gateway call of any container action throws, the
resulting state has loading cleared, the error field set to the failure's
message, and the canonical collection and stats unchanged; this holds for
every container state, with toggleStatus additionally conditioned on its
lookup succeeding, since it returns early — calling no gateway — when the
id is absent from `allTodos`. -/
theorem container_gateway_failure (s : TodoState) (e : ApiError) (id : String) :
    errOutcome s (runLoad s (Except.error e)) e ∧
    errOutcome s (runCreate s (Except.error e)) e ∧
    errOutcome s (runUpdate s (Except.error e)) e ∧
    errOutcome s (runDelete s id (Except.error e)) e ∧
    (∀ td, s.allTodos.find? (fun todo => todo.id = id) = some td →
      errOutcome s (runToggle s id (fun _ => Except.error e)) e) := by
  refine ⟨?_, ?_, ?_, ?_, fun td hfind => ?_⟩ <;>
    simp [errOutcome, runLoad, runCreate, runUpdate, runDelete, runToggle, todoReducer]
  simp [hfind, runUpdate, todoReducer]

theorem flipStatus_flipStatus (s : TaskStatus) : flipStatus (flipStatus s) = s := by
  cases s <;> rfl

/-- C7: sorting by priority ascending puts every high record before every
medium record and every medium before every low (the rank sequence is
non-decreasing), keeping records of equal priority in their original
relative order; descending reverses the bucket order and still preserves
the within-bucket order. -/
theorem priority_sort_spec (l : List Todo) :
    ((filterAndSortTodos l {}
        { field := SortField.priority, direction := SortDirection.asc }).Pairwise
      fun a b => priorityOrder a.priority ≤ priorityOrder b.priority) ∧
    (∀ p : Priority,
      (filterAndSortTodos l {}
          { field := SortField.priority, direction := SortDirection.asc }).filter
        (fun t => t.priority = p) = l.filter fun t => t.priority = p) ∧
    ((filterAndSortTodos l {}
        { field := SortField.priority, direction := SortDirection.desc }).Pairwise
      fun a b => priorityOrder b.priority ≤ priorityOrder a.priority) ∧
    (∀ p : Priority,
      (filterAndSortTodos l {}
          { field := SortField.priority, direction := SortDirection.desc }).filter
        (fun t => t.priority = p) = l.filter fun t => t.priority = p) := by
  have htie : ∀ (d : SortDirection) (p : Priority) (a b : Todo),
      (decide (a.priority = p)) = true → (decide (b.priority = p)) = true →
      sortLE { field := SortField.priority, direction := d } a b := by
    intro d p a b ha hb
    simp only [decide_eq_true_eq] at ha hb
    cases d
    · rw [sortLE_asc_iff]
      simp [keyLt, ha, hb]
    · rw [sortLE_desc_iff]
      simp [keyLt, ha, hb]
  refine ⟨?_, ?_, ?_, ?_⟩
  · unfold filterAndSortTodos
    rw [applyFilters_empty]
    refine (stableSortJS_sorted _ l).imp fun hab => ?_
    have h := (sortLE_asc_iff SortField.priority _ _).mp hab
    simp only [keyLt, decide_eq_false_iff_not, not_lt] at h
    exact h
  · intro p
    unfold filterAndSortTodos
    rw [applyFilters_empty]
    exact filter_stableSortJS _ _ (fun a b => htie SortDirection.asc p a b) l
  · unfold filterAndSortTodos
    rw [applyFilters_empty]
    refine (stableSortJS_sorted _ l).imp fun hab => ?_
    have h := (sortLE_desc_iff SortField.priority _ _).mp hab
    simp only [keyLt, decide_eq_false_iff_not, not_lt] at h
    exact h
  · intro p
    unfold filterAndSortTodos
    rw [applyFilters_empty]
    exact filter_stableSortJS _ _ (fun a b => htie SortDirection.desc p a b) l

/-- One gateway toggle of the stored record with its current status. -/
theorem toggle_spec (pre post : List Todo) (t : Todo) (id : String) (now : Nat)
    (hpre : ∀ x ∈ pre, x.id ≠ id) (ht : t.id = id) :
    toggleTodoStatus (pre ++ t :: post) id t.status now =
      Except.ok (mergeUpdate t { id := id, status := some (flipStatus t.status) } now,
        pre ++ mergeUpdate t { id := id, status := some (flipStatus t.status) } now :: post) := by
  unfold toggleTodoStatus updateTodo
  rw [updateFirst_spec pre post t _ now hpre ht]

/-- C3 counterexample: toggling a stored completed record twice (at times
5 and 9) brings `status` back but resets `completedAt` to the second
toggle's time instead of its original value. -/
theorem toggle_twice_counterexample :
    toggleTodoStatus [wCompleted] "b" TaskStatus.completed 5 =
      Except.ok (wCompletedT1, [wCompletedT1]) ∧
    toggleTodoStatus [wCompletedT1] "b" TaskStatus.pending 9 =
      Except.ok (wCompletedT2, [wCompletedT2]) ∧
    wCompletedT2.status = wCompleted.status ∧
    wCompletedT2.completedAt = some 9 ∧
    wCompleted.completedAt = some 2 ∧
    ¬ wCompletedT2.completedAt = wCompleted.completedAt := by
  decide

/-- C3 (amended): toggling a stored record twice returns `status` and all
other fields to their pre-toggle values and `updatedAt` strictly increases
on each toggle; `completedAt` also round-trips when the record started
pending with `completedAt` absent, but for a record that started completed
it is reset to the second toggle's time. -/
theorem toggle_twice_roundtrip (pre post : List Todo) (t : Todo) (id : String)
    (now1 now2 : Nat) (hpre : ∀ x ∈ pre, x.id ≠ id) (ht : t.id = id)
    (hn1 : t.updatedAt < now1) (hn2 : now1 < now2) :
    ∃ t1 t2 : Todo,
      toggleTodoStatus (pre ++ t :: post) id t.status now1 =
        Except.ok (t1, pre ++ t1 :: post) ∧
      toggleTodoStatus (pre ++ t1 :: post) id t1.status now2 =
        Except.ok (t2, pre ++ t2 :: post) ∧
      t.updatedAt < t1.updatedAt ∧ t1.updatedAt < t2.updatedAt ∧
      t2.id = t.id ∧ t2.title = t.title ∧ t2.description = t.description ∧
      t2.priority = t.priority ∧ t2.createdAt = t.createdAt ∧ t2.status = t.status ∧
      (t.status = TaskStatus.pending → t.completedAt = none →
        t2.completedAt = t.completedAt) ∧
      (t.status = TaskStatus.completed → t2.completedAt = some now2) := by
  have e1 := toggle_spec pre post t id now1 hpre ht
  have e2 := toggle_spec pre post
    (mergeUpdate t { id := id, status := some (flipStatus t.status) } now1) id now2 hpre rfl
  refine ⟨_, _, e1, e2, hn1, hn2, ht.symm, rfl, rfl, rfl, rfl,
    flipStatus_flipStatus t.status, ?_, ?_⟩
  · intro hts hcomp
    simp [mergeUpdate, flipStatus, hts, hcomp]
  · intro hts
    simp [mergeUpdate, flipStatus, hts]

/-- C3 witness: double toggle of a concrete pending record at times 3
and 7. -/
theorem toggle_twice_roundtrip_witness :
    ∃ t1 t2 : Todo,
      toggleTodoStatus [wPending] "p" wPending.status 3 = Except.ok (t1, [t1]) ∧
      toggleTodoStatus [t1] "p" t1.status 7 = Except.ok (t2, [t2]) ∧
      wPending.updatedAt < t1.updatedAt ∧ t1.updatedAt < t2.updatedAt ∧
      t2.id = wPending.id ∧ t2.title = wPending.title ∧
      t2.description = wPending.description ∧ t2.priority = wPending.priority ∧
      t2.createdAt = wPending.createdAt ∧ t2.status = wPending.status ∧
      (wPending.status = TaskStatus.pending → wPending.completedAt = none →
        t2.completedAt = wPending.completedAt) ∧
      (wPending.status = TaskStatus.completed → t2.completedAt = some 7) :=
  toggle_twice_roundtrip [] [] wPending "p" 3 7 (by simp) rfl (by decide) (by decide)

/-- C9 witness: a 500 failure hitting a container holding one record,
with the toggle conjunct's lookup discharged at that record. -/
theorem container_gateway_failure_witness :
    errOutcome wState (runLoad wState (Except.error wErr)) wErr ∧
    errOutcome wState (runCreate wState (Except.error wErr)) wErr ∧
    errOutcome wState (runUpdate wState (Except.error wErr)) wErr ∧
    errOutcome wState (runDelete wState "p" (Except.error wErr)) wErr ∧
    errOutcome wState (runToggle wState "p" (fun _ => Except.error wErr)) wErr := by
  have h := container_gateway_failure wState wErr "p"
  exact ⟨h.1, h.2.1, h.2.2.1, h.2.2.2.1, h.2.2.2.2 wPending (by decide)⟩

/-- C1 counterexample: create a todo on the empty system, then toggle its
status; the reached state's `stats` still count it as pending, disagreeing
with the aggregate over `allTodos` (the `UPDATE_TODO` reducer branch does
not touch stats). -/
theorem stats_invariant_counterexample :
    Reachable c1Sys2 ∧ c1Sys2.ctx.stats ≠ calculateStats c1Sys2.ctx.allTodos := by
  constructor
  · have h0 : Reachable c1Sys1 :=
      Reachable.create c1Draft "a" 1 Reachable.init (by simp)
    have hfind : c1Sys1.ctx.allTodos.find? (fun todo => todo.id = "a") = some c1Todo1 := by
      decide
    have hupd :
        updateTodo c1Sys1.storage
          { id := "a", status := some (flipStatus c1Todo1.status) } 2 =
          Except.ok (c1Todo2, [c1Todo2]) := by
      decide
    exact Reachable.toggle "a" 2 h0 hfind hupd
  · decide

/-- The invariant carried by load/create/remove reachability: the
container mirrors the store, the stats are the store's aggregate, and
stored ids are distinct. -/
theorem lcr_inv {sys : SysState} (h : ReachableLCR sys) :
    sys.ctx.allTodos = sys.storage ∧ sys.ctx.stats = calculateStats sys.storage ∧
    (sys.storage.map Todo.id).Nodup := by
  induction h with
  | init => exact ⟨rfl, by decide, by simp⟩
  | load h ih =>
    obtain ⟨hall, hstats, hnd⟩ := ih
    refine ⟨?_, ?_, hnd⟩ <;> simp [doLoad, runLoad, getTodos, todoReducer]
  | create req id now h hfresh ih =>
    obtain ⟨hall, hstats, hnd⟩ := ih
    refine ⟨?_, ?_, ?_⟩
    · simp [doCreate, runCreate, createTodo, todoReducer, hall]
    · simp only [doCreate, runCreate, createTodo, todoReducer]
      rw [calculateStats_append, hstats]
      simp [statsWith]
    · simp only [doCreate, createTodo]
      rw [List.map_append, List.nodup_append]
      refine ⟨hnd, by simp, ?_⟩
      intro x hx
      simp only [List.map_cons, List.map_nil, List.mem_singleton]
      obtain ⟨t, htmem, htid⟩ := List.mem_map.mp hx
      intro hcontra
      exact hfresh t htmem (htid.trans hcontra)
  | @remove sys' st' id h hdel ih =>
    obtain ⟨hall, hstats, hnd⟩ := ih
    have hrf : removeFirst sys'.storage id = some st' := by
      unfold deleteTodo at hdel
      cases hr : removeFirst sys'.storage id with
      | none => rw [hr] at hdel; simp at hdel
      | some r =>
        rw [hr] at hdel
        simp only [Prod.mk.injEq] at hdel
        rw [hdel.2]
    obtain ⟨pre, td, post, hdecomp, htid, hpreids, hrest⟩ := removeFirst_some _ _ _ hrf
    have hpostids : ∀ x ∈ post, x.id ≠ id := by
      intro x hx heq
      rw [hdecomp, List.map_append, List.map_cons] at hnd
      have := (List.nodup_append.mp hnd).2.1
      rw [List.nodup_cons] at this
      exact this.1 (htid ▸ heq ▸ List.mem_map_of_mem Todo.id hx)
    have hfind : sys'.ctx.allTodos.find? (fun todo => todo.id = id) = some td := by
      rw [hall, hdecomp]
      exact find?_first pre post td id hpreids htid
    have hfilter :
        sys'.ctx.allTodos.filter (fun todo => ¬ todo.id = id) = pre ++ post := by
      rw [hall, hdecomp]
      exact filter_ne_id pre post td id hpreids hpostids htid
    refine ⟨?_, ?_, ?_⟩
    · simp only [runDelete, todoReducer, hfind]
      rw [hfilter, hrest]
    · simp only [runDelete, todoReducer, hfind]
      rw [hstats, hdecomp, hrest, calculateStats_middle]
      cases hs : td.status <;> cases hp : td.priority <;>
        simp [statsWith, decStatusBucket, bumpPriority, hs, hp]
    · rw [hrest]
      refine List.Nodup.sublist ?_ (hdecomp ▸ hnd)
      exact ((post.sublist_cons_self td).append_left pre).map Todo.id

/-- C1 (amended): for every state reachable from the empty initial state
by successful load, create and remove actions, the stats field equals the
aggregate computed over the canonical collection; the generic update path
and toggleStatus are excluded because their `UPDATE_TODO` dispatch leaves
stats untouched. -/
theorem stats_invariant_lcr (sys : SysState) (h : ReachableLCR sys) :
    sys.ctx.stats = calculateStats sys.ctx.allTodos := by
  obtain ⟨hall, hstats, -⟩ := lcr_inv h
  rw [hstats, hall]

/-- C1 (amended) witness: the state after one successful create. -/
theorem stats_invariant_lcr_witness :
    c1Sys1.ctx.stats = calculateStats c1Sys1.ctx.allTodos :=
  stats_invariant_lcr c1Sys1 (ReachableLCR.create c1Draft "a" 1 ReachableLCR.init (by simp))

end TodoApp
